import Mathlib

/-!
# Verification of the `imageocr` filter

Shallow embedding of `src/imageocr.py`: an OpenWebUI-style filter that
locates the first image reference in a chat payload, fetches OCR text for it
from a remote vision model with a bounded retry loop, and substitutes the
extracted text in place of the image on the first conversation round.

Python dictionaries are embedded as records whose fields model the keys the
code reads or writes; a field of type `Option _` models a key that may be
absent (`none` = key missing).  Raising `KeyError` is modelled by an
`Except` result of the scanner and of `inlet`.  The network is modelled by
an oracle `net : Nat → AttemptOutcome` giving the outcome of each attempt of
one fetch call, and the observable side effects (status notifications and
network attempts) are collected in an event trace.
-/

namespace ImageOCR

/-- Value of the `"image_url"` key of a content item: a dict whose `"url"`
key may be absent. -/
structure ImageUrlVal where
  url? : Option String
deriving DecidableEq

/-- A content item dict.  The code reads/writes the keys `"type"`, `"text"`
and `"image_url"`.  `text?` holds `some v` when the `"text"` key is present
with value `v`, where `v : Option String` models a Python value that may be
`None`. -/
structure ContentItem where
  type? : Option String
  text? : Option (Option String)
  image_url? : Option ImageUrlVal
deriving DecidableEq

/-- The value of a message's `"content"` key: either a scalar (e.g. a plain
string) or a list of content items; only the latter is scanned. -/
inductive ContentVal where
  | scalar (s : String)
  | list (items : List ContentItem)
deriving DecidableEq

/-- A message dict.  `role?` models the `"role"` key (read with `[...]`, so
absence raises `KeyError`); `content?` models the `"content"` key (read with
`.get`, so absence is harmless). -/
structure Message where
  role? : Option String
  content? : Option ContentVal
deriving DecidableEq

/-- The request payload (`body`): a dict whose `"messages"` key is read with
`body.get("messages", [])`. -/
structure Body where
  messages? : Option (List Message)
deriving DecidableEq

/-- The filter's configuration (`Filter.Valves`). -/
structure Valves where
  priority : Int
  OCR_Base_URL : String
  OCR_API_KEY : String
  max_retries : Int
  ocr_prompt : String
  model_name : String
deriving DecidableEq

/-- The default valve values declared by the `pydantic` fields. -/
def defaultValves : Valves :=
  { priority := 0
    OCR_Base_URL := "https://api.openai.com"
    OCR_API_KEY := ""
    max_retries := 3
    ocr_prompt := "Please only recognize and extract the text or data from this image without interpreting, analyzing, or understanding the content. Do not output any additional information. Simply return the recognized text or data content."
    model_name := "gemini-1.5-flash-latest" }

/-- A Python `KeyError` raised while scanning, with the missing key. -/
inductive ScanErr where
  | keyError (key : String)
deriving DecidableEq

/-- Bump the content index of a located image by one (the inner
`enumerate` advancing past a non-image item). -/
def shiftContent : Except ScanErr (Option (Nat × String)) →
    Except ScanErr (Option (Nat × String))
  | .ok (some (ci, u)) => .ok (some (ci + 1, u))
  | r => r

/-- Inner loop of `Filter._find_image_in_messages`: scan one message's
content list, in order, for the first item whose `"type"` is
`"image_url"`; return its index and `content["image_url"]["url"]`. -/
def find_image_in_content : List ContentItem → Except ScanErr (Option (Nat × String))
  | [] => .ok none
  | item :: rest =>
    match item.type? with
    | none => .error (.keyError "type")
    | some ty =>
      if ty = "image_url" then
        match item.image_url? with
        | none => .error (.keyError "image_url")
        | some iu =>
          match iu.url? with
          | none => .error (.keyError "url")
          | some u => .ok (some (0, u))
      else shiftContent (find_image_in_content rest)

/-- Bump the message index of a located image by one (the outer
`enumerate` advancing past a message). -/
def shiftMessage : Except ScanErr (Option (Nat × Nat × String)) →
    Except ScanErr (Option (Nat × Nat × String))
  | .ok (some (mi, ci, u)) => .ok (some (mi + 1, ci, u))
  | r => r

/-- `Filter._find_image_in_messages`: scan messages in order; for each, read
`message["role"]` (raising `KeyError` when absent); user messages whose
`content` is a list are scanned item by item; the first image item found is
returned as `(message_index, content_index, url)`; otherwise `none`. -/
def find_image_in_messages : List Message → Except ScanErr (Option (Nat × Nat × String))
  | [] => .ok none
  | m :: rest =>
    match m.role? with
    | none => .error (.keyError "role")
    | some r =>
      if r = "user" then
        match m.content? with
        | some (.list items) =>
          match find_image_in_content items with
          | .error e => .error e
          | .ok (some (ci, u)) => .ok (some (0, ci, u))
          | .ok none => shiftMessage (find_image_in_messages rest)
        | _ => shiftMessage (find_image_in_messages rest)
      else shiftMessage (find_image_in_messages rest)

/-- An `image_url` object of the outbound OCR request body. -/
structure ReqImageUrl where
  url : String
  detail : String
deriving DecidableEq

/-- A content item of the outbound OCR request body. -/
inductive ReqContent where
  | text (t : String)
  | image_url (iu : ReqImageUrl)
deriving DecidableEq

/-- A message of the outbound OCR request body. -/
structure ReqMessage where
  role : String
  content : List ReqContent
deriving DecidableEq

/-- One outbound HTTP POST request of `_perform_ocr`: target URL, the two
headers, and the JSON body (`model` and `messages`). -/
structure OcrRequest where
  url : String
  contentType : String
  authorization : String
  model : String
  messages : List ReqMessage
deriving DecidableEq

/-- The request `_perform_ocr` builds (once, before the retry loop) from the
valves and the located image reference. -/
def build_ocr_request (v : Valves) (image : String) : OcrRequest :=
  { url := v.OCR_Base_URL ++ "/v1/chat/completions"
    contentType := "application/json"
    authorization := "Bearer " ++ v.OCR_API_KEY
    model := v.model_name
    messages :=
      [ { role := "system", content := [.text v.ocr_prompt] }
      , { role := "user"
          content := [ .text v.ocr_prompt
                     , .image_url { url := image, detail := "high" } ] } ] }

/-- Outcome of one network attempt (post + `raise_for_status` + JSON
decoding + extraction of `response_data["choices"][0]["message"]["content"]`):
either the extracted text, or some exception with message `err`. -/
inductive AttemptOutcome where
  | ok (text : String)
  | fail (err : String)
deriving DecidableEq

/-- Observable side effects of a fetch call: a status notification sent to
the event emitter, or one network attempt carrying the posted request. -/
inductive Event where
  | status (description : String) (done : Bool)
  | netAttempt (attempt : Nat) (req : OcrRequest)
deriving DecidableEq

/-- Description of the "processing" status notification. -/
def processingDesc : String := "✨正在对图像进行文字识别中，请耐心等待..."

/-- Description of the success status notification. -/
def successDesc : String := "🎉识别成功，交由模型进行处理..."

/-- How `_perform_ocr` terminates: a normal return (`some t` from a
successful attempt; `none` is Python's implicit `return None` when the
`for` loop body never runs), or a raised `RuntimeError` message. -/
inductive OcrResult where
  | returned (value : Option String)
  | raised (message : String)
deriving DecidableEq

/-- The retry loop of `_perform_ocr`, iterating over the attempt indices of
`range(max_retries)`.  A successful attempt emits the success notification
and returns the text; a failing attempt re-raises as `RuntimeError` when
`attempt == max_retries - 1` and otherwise moves on to the next attempt. -/
def ocrLoop (net : Nat → AttemptOutcome) (req : OcrRequest) (R : Int) :
    List Nat → List Event × OcrResult
  | [] => ([], .returned none)
  | a :: rest =>
    match net a with
    | .ok t =>
      ([.netAttempt a req, .status successDesc true], .returned (some t))
    | .fail e =>
      if (a : Int) = R - 1 then
        ([.netAttempt a req], .raised ("OCR识别失败：" ++ e))
      else
        let p := ocrLoop net req R rest
        (.netAttempt a req :: p.1, p.2)

/-- `Filter._perform_ocr`: emit the processing notification, build the
request, then run the retry loop over `range(max_retries)` (empty when
`max_retries <= 0`, matching Python's `range`). -/
def perform_ocr (v : Valves) (image : String) (net : Nat → AttemptOutcome) :
    List Event × OcrResult :=
  let p := ocrLoop net (build_ocr_request v image) v.max_retries
    (List.range v.max_retries.toNat)
  (.status processingDesc false :: p.1, p.2)

/-- The in-place mutation of the located content item on fetch success:
`["type"] = "text"`, `.pop("image_url", None)`, `["text"] = result`. -/
def retype_item (item : ContentItem) (result : Option String) : ContentItem :=
  { item with type? := some "text", image_url? := none, text? := some result }

/-- `messages[mi]["content"][ci]` updated by `retype_item`; the fallback
branches are unreachable when the location came from the scanner. -/
def set_item (msgs : List Message) (mi ci : Nat) (result : Option String) :
    List Message :=
  match msgs[mi]? with
  | some m =>
    match m.content? with
    | some (.list items) =>
      match items[ci]? with
      | some item =>
        msgs.set mi { m with content? := some (.list (items.set ci (retype_item item result))) }
      | none => msgs
    | _ => msgs
  | none => msgs

/-- `del messages[mi]["content"][ci]`; the fallback branches are unreachable
when the location came from the scanner. -/
def del_item (msgs : List Message) (mi ci : Nat) : List Message :=
  match msgs[mi]? with
  | some m =>
    match m.content? with
    | some (.list items) =>
      msgs.set mi { m with content? := some (.list (items.eraseIdx ci)) }
    | _ => msgs
  | none => msgs

/-- `Filter.inlet`: read `body.get("messages", [])`, locate the first image
(a scanner `KeyError` propagates to the caller), return the body unchanged
when none is found; when this is the second round or later
(`len(messages) // 2 >= 1`) delete the located item; otherwise perform the
OCR fetch and either substitute its result in place or, when the fetch
raises, swallow the error and return the body unchanged.  The first
component of the result is the trace of emitted events. -/
def inlet (v : Valves) (net : Nat → AttemptOutcome) (body : Body) :
    Except ScanErr (List Event × Body) :=
  let messages := body.messages?.getD []
  match find_image_in_messages messages with
  | .error e => .error e
  | .ok none => .ok ([], body)
  | .ok (some (mi, ci, image)) =>
    if 1 ≤ messages.length / 2 then
      .ok ([], { body with messages? := some (del_item messages mi ci) })
    else
      match perform_ocr v image net with
      | (tr, .raised _) => .ok (tr, body)
      | (tr, .returned result) =>
        .ok (tr, { body with messages? := some (set_item messages mi ci result) })

/-- `Filter.outlet`: the identity pass-through hook. -/
def outlet (body : Body) : Body := body

/-- Whether an event is a network attempt. -/
def isNetAttempt : Event → Bool
  | .netAttempt _ _ => true
  | _ => false

/-- Number of network attempts recorded in a trace. -/
def attemptsOf (tr : List Event) : Nat := (tr.filter isNetAttempt).length

/-- The content item at message index `mi`, content index `ci`, when the
message exists and its content is a list. -/
def itemAt (msgs : List Message) (mi ci : Nat) : Option ContentItem :=
  match msgs[mi]? with
  | some m =>
    match m.content? with
    | some (.list items) => items[ci]?
    | _ => none
  | none => none

/-- The message list of an `inlet` outcome (empty on a raised `KeyError`). -/
def resultMessages (r : Except ScanErr (List Event × Body)) : List Message :=
  match r with
  | .ok (_, b) => b.messages?.getD []
  | .error _ => []

end ImageOCR

deriving instance DecidableEq for Except

namespace ImageOCR

/-! ## Lemmas about the retry loop -/

theorem perform_ocr_eq (v : Valves) (image : String) (net : Nat → AttemptOutcome) :
    perform_ocr v image net =
      (.status processingDesc false ::
        (ocrLoop net (build_ocr_request v image) v.max_retries
          (List.range v.max_retries.toNat)).1,
       (ocrLoop net (build_ocr_request v image) v.max_retries
          (List.range v.max_retries.toNat)).2) := rfl

/-- Every trace of the retry loop is a block of network attempts, followed by
the success notification exactly when the loop returns extracted text. -/
theorem ocrLoop_shape (net : Nat → AttemptOutcome) (req : OcrRequest) (R : Int) :
    ∀ l : List Nat,
      (∃ (as : List Nat) (t : String), ocrLoop net req R l =
        (as.map (fun a => Event.netAttempt a req) ++ [.status successDesc true],
         .returned (some t))) ∨
      (∃ (as : List Nat) (e : String), ocrLoop net req R l =
        (as.map (fun a => Event.netAttempt a req), .raised e)) ∨
      (∃ as : List Nat, ocrLoop net req R l =
        (as.map (fun a => Event.netAttempt a req), .returned none)) := by
  intro l
  induction l with
  | nil => exact Or.inr (Or.inr ⟨[], rfl⟩)
  | cons a rest ih =>
    cases hnet : net a with
    | ok t =>
      refine Or.inl ⟨[a], t, ?_⟩
      simp [ocrLoop, hnet]
    | fail e =>
      by_cases hlast : (a : Int) = R - 1
      · refine Or.inr (Or.inl ⟨[a], "OCR识别失败：" ++ e, ?_⟩)
        simp [ocrLoop, hnet, hlast]
      · rcases ih with ⟨as, t, hih⟩ | ⟨as, e2, hih⟩ | ⟨as, hih⟩
        · refine Or.inl ⟨a :: as, t, ?_⟩
          simp [ocrLoop, hnet, hlast, hih]
        · refine Or.inr (Or.inl ⟨a :: as, e2, ?_⟩)
          simp [ocrLoop, hnet, hlast, hih]
        · refine Or.inr (Or.inr ⟨a :: as, ?_⟩)
          simp [ocrLoop, hnet, hlast, hih]

/-- Every network attempt recorded by the retry loop posts the request the
loop was given. -/
theorem ocrLoop_req (net : Nat → AttemptOutcome) (req : OcrRequest) (R : Int)
    (l : List Nat) (a : Nat) (req2 : OcrRequest)
    (hmem : Event.netAttempt a req2 ∈ (ocrLoop net req R l).1) : req2 = req := by
  rcases ocrLoop_shape net req R l with ⟨as, t, h⟩ | ⟨as, e, h⟩ | ⟨as, h⟩ <;>
    rw [h] at hmem <;> simp [List.mem_append, List.mem_map] at hmem
  · rcases hmem with ⟨x, _, hx⟩
    exact hx.2.symm
  · rcases hmem with ⟨x, _, hx⟩
    exact hx.2.symm
  · rcases hmem with ⟨x, _, hx⟩
    exact hx.2.symm

/-- The retry loop runs past a block of failing attempts none of which is
the last allowed one. -/
theorem ocrLoop_skip (net : Nat → AttemptOutcome) (req : OcrRequest) (R : Int) :
    ∀ (j s m : Nat),
      (∀ i, i < j → ∃ e, net (s + i) = .fail e) →
      (∀ i, i < j → ((s + i : Nat) : Int) ≠ R - 1) →
      ocrLoop net req R (List.range' s (j + m)) =
        ((List.range' s j).map (fun a => Event.netAttempt a req) ++
            (ocrLoop net req R (List.range' (s + j) m)).1,
         (ocrLoop net req R (List.range' (s + j) m)).2) := by
  intro j
  induction j with
  | zero =>
    intro s m _ _
    simp [List.range']
  | succ j ih =>
    intro s m hfail hne
    obtain ⟨e, he⟩ := hfail 0 (Nat.succ_pos j)
    have hs : ((s : Nat) : Int) ≠ R - 1 := by
      have := hne 0 (Nat.succ_pos j); simpa using this
    rw [Nat.succ_add, List.range'_succ]
    have he2 : net s = .fail e := by simpa using he
    have ihs := ih (s + 1) m
      (fun i hi => by
        have := hfail (i + 1) (Nat.succ_lt_succ hi)
        simpa [Nat.add_assoc, Nat.add_comm 1 i] using this)
      (fun i hi => by
        have := hne (i + 1) (Nat.succ_lt_succ hi)
        simpa [Nat.add_assoc, Nat.add_comm 1 i] using this)
    have harr : s + 1 + j = s + (j + 1) := by omega
    rw [harr] at ihs
    simp [ocrLoop, he2, hs, ihs, List.range'_succ]

/-- A trace made only of network attempts has one attempt per index. -/
theorem attemptsOf_map (l : List Nat) (req : OcrRequest) :
    attemptsOf (l.map (fun a => Event.netAttempt a req)) = l.length := by
  simp [attemptsOf, List.filter_map, Function.comp, isNetAttempt]

theorem attemptsOf_append (l1 l2 : List Event) :
    attemptsOf (l1 ++ l2) = attemptsOf l1 + attemptsOf l2 := by
  simp [attemptsOf, List.filter_append]

theorem attemptsOf_status (d : String) (b : Bool) (l : List Event) :
    attemptsOf (Event.status d b :: l) = attemptsOf l := by
  simp [attemptsOf, List.filter, isNetAttempt]

theorem attemptsOf_net (a : Nat) (req : OcrRequest) (l : List Event) :
    attemptsOf (Event.netAttempt a req :: l) = attemptsOf l + 1 := by
  simp [attemptsOf, List.filter, isNetAttempt, Nat.add_comm]

/-! ## Lemmas about the scanner -/

/-- Soundness and minimality of the inner content scan: a located image item
really is an image item at that index and every earlier item has a
non-image type. -/
theorem find_content_sound :
    ∀ (items : List ContentItem) (ci : Nat) (u : String),
      find_image_in_content items = .ok (some (ci, u)) →
      ∃ item iu, items[ci]? = some item ∧ item.type? = some "image_url" ∧
        item.image_url? = some iu ∧ iu.url? = some u ∧
        ∀ k, k < ci → ∃ it2 ty, items[k]? = some it2 ∧ it2.type? = some ty ∧
          ty ≠ "image_url" := by
  intro items
  induction items with
  | nil => intro ci u h; simp [find_image_in_content] at h
  | cons item rest ih =>
    intro ci u h
    rw [find_image_in_content] at h
    cases hty : item.type? with
    | none => simp only [hty] at h; exact absurd h (by simp)
    | some ty =>
      simp only [hty] at h
      by_cases himg : ty = "image_url"
      · rw [if_pos himg] at h
        cases hiu : item.image_url? with
        | none => simp only [hiu] at h; exact absurd h (by simp)
        | some iu =>
          simp only [hiu] at h
          cases hurl : iu.url? with
          | none => simp only [hurl] at h; exact absurd h (by simp)
          | some u0 =>
            simp only [hurl] at h
            simp only [Except.ok.injEq, Option.some.injEq, Prod.mk.injEq] at h
            obtain ⟨h1, h2⟩ := h
            subst h1; subst h2
            refine ⟨item, iu, by simp, by rw [hty, himg], hiu, hurl, ?_⟩
            intro k hk; omega
      · rw [if_neg himg] at h
        cases hfr : find_image_in_content rest with
        | error e => simp only [hfr] at h; simp [shiftContent] at h
        | ok o =>
          cases o with
          | none => simp only [hfr] at h; simp [shiftContent] at h
          | some p =>
            obtain ⟨ci2, u2⟩ := p
            simp only [hfr] at h
            simp only [shiftContent, Except.ok.injEq, Option.some.injEq] at h
            obtain ⟨hci, hu⟩ := Prod.mk.injEq .. ▸ h.symm
            obtain ⟨item2, iu2, hget, hty2, hiu2, hurl2, hmin⟩ :=
              ih ci2 u2 hfr
            subst hci; subst hu
            refine ⟨item2, iu2, by simpa using hget, hty2, hiu2, hurl2, ?_⟩
            intro k hk
            cases k with
            | zero => exact ⟨item, ty, by simp, hty, himg⟩
            | succ k2 =>
              obtain ⟨it3, ty3, h1, h2, h3⟩ := hmin k2 (by omega)
              exact ⟨it3, ty3, by simpa using h1, h2, h3⟩

/-- When the inner content scan reports absence, every item of the list has
a type key with a non-image type. -/
theorem find_content_none :
    ∀ items : List ContentItem, find_image_in_content items = .ok none →
      ∀ it ∈ items, ∃ ty, it.type? = some ty ∧ ty ≠ "image_url" := by
  intro items
  induction items with
  | nil => intro _ it hit; simp at hit
  | cons item rest ih =>
    intro h it hit
    rw [find_image_in_content] at h
    cases hty : item.type? with
    | none => simp only [hty] at h; exact absurd h (by simp)
    | some ty =>
      simp only [hty] at h
      by_cases himg : ty = "image_url"
      · rw [if_pos himg] at h
        cases hiu : item.image_url? with
        | none => simp only [hiu] at h; exact absurd h (by simp)
        | some iu =>
          simp only [hiu] at h
          cases hurl : iu.url? with
          | none => simp only [hurl] at h; exact absurd h (by simp)
          | some u0 => simp only [hurl] at h; exact absurd h (by simp)
      · rw [if_neg himg] at h
        have hrest : find_image_in_content rest = .ok none := by
          cases hfr : find_image_in_content rest with
          | error e => simp only [hfr] at h; simp [shiftContent] at h
          | ok o =>
            cases o with
            | none => rfl
            | some p => simp only [hfr] at h; simp [shiftContent] at h
        rcases List.mem_cons.mp hit with heq | hmem
        · exact ⟨ty, heq ▸ hty, himg⟩
        · exact ih hrest it hmem

/-- Inverting `shiftMessage` on a located image. -/
theorem shiftMessage_ok_some (r : Except ScanErr (Option (Nat × Nat × String)))
    (mi ci : Nat) (u : String)
    (h : shiftMessage r = .ok (some (mi, ci, u))) :
    ∃ mi2, mi = mi2 + 1 ∧ r = .ok (some (mi2, ci, u)) := by
  cases r with
  | error e => simp [shiftMessage] at h
  | ok o =>
    cases o with
    | none => simp [shiftMessage] at h
    | some p =>
      obtain ⟨mi2, ci2, u2⟩ := p
      simp only [shiftMessage, Except.ok.injEq, Option.some.injEq] at h
      refine ⟨mi2, ?_, ?_⟩
      · exact (congrArg Prod.fst h).symm
      · have h2 : ci2 = ci ∧ u2 = u := by
          have := congrArg Prod.snd h
          exact ⟨congrArg Prod.fst this, congrArg Prod.snd this⟩
        rw [h2.1, h2.2]

/-- Soundness and minimality of the message scan: the located message is a
user message with list content whose inner scan found the image, and every
earlier message is either not scannable or scans to absence. -/
theorem find_messages_sound :
    ∀ (msgs : List Message) (mi ci : Nat) (u : String),
      find_image_in_messages msgs = .ok (some (mi, ci, u)) →
      ∃ m items, msgs[mi]? = some m ∧ m.role? = some "user" ∧
        m.content? = some (.list items) ∧
        find_image_in_content items = .ok (some (ci, u)) ∧
        ∀ j, j < mi → ∃ m2, msgs[j]? = some m2 ∧
          ∀ items2, m2.role? = some "user" → m2.content? = some (.list items2) →
            find_image_in_content items2 = .ok none := by
  intro msgs
  induction msgs with
  | nil => intro mi ci u h; simp [find_image_in_messages] at h
  | cons m rest ih =>
    intro mi ci u h
    have skip :
        shiftMessage (find_image_in_messages rest) = .ok (some (mi, ci, u)) →
        (∀ items2, m.role? = some "user" → m.content? = some (.list items2) →
          find_image_in_content items2 = .ok none) →
        ∃ m3 items, (m :: rest)[mi]? = some m3 ∧ m3.role? = some "user" ∧
          m3.content? = some (.list items) ∧
          find_image_in_content items = .ok (some (ci, u)) ∧
          ∀ j, j < mi → ∃ m2, (m :: rest)[j]? = some m2 ∧
            ∀ items2, m2.role? = some "user" → m2.content? = some (.list items2) →
              find_image_in_content items2 = .ok none := by
      intro hsh hfirst
      obtain ⟨mi2, hmi, hrest⟩ := shiftMessage_ok_some _ _ _ _ hsh
      obtain ⟨m3, items, hget, hr3, hc3, hfc3, hmin⟩ := ih mi2 ci u hrest
      subst hmi
      refine ⟨m3, items, by simpa using hget, hr3, hc3, hfc3, ?_⟩
      intro j hj
      cases j with
      | zero => exact ⟨m, by simp, hfirst⟩
      | succ j2 =>
        obtain ⟨m4, hg4, hp4⟩ := hmin j2 (by omega)
        exact ⟨m4, by simpa using hg4, hp4⟩
    rw [find_image_in_messages] at h
    cases hrole : m.role? with
    | none => simp only [hrole] at h; exact absurd h (by simp)
    | some r =>
      simp only [hrole] at h
      by_cases huser : r = "user"
      · rw [if_pos huser] at h
        cases hcont : m.content? with
        | none =>
          simp only [hcont] at h
          exact skip h (fun items2 _ hc => by rw [hcont] at hc; exact absurd hc (by simp))
        | some cv =>
          cases cv with
          | scalar s =>
            simp only [hcont] at h
            exact skip h (fun items2 _ hc => by rw [hcont] at hc; exact absurd hc (by simp))
          | list items =>
            simp only [hcont] at h
            cases hfc : find_image_in_content items with
            | error e => simp only [hfc] at h; exact absurd h (by simp)
            | ok o =>
              cases o with
              | some p =>
                obtain ⟨ci0, u0⟩ := p
                simp only [hfc] at h
                have hmi : mi = 0 ∧ ci = ci0 ∧ u = u0 := by
                  simp at h
                  exact ⟨h.1.symm, h.2.1.symm, h.2.2.symm⟩
                obtain ⟨h1, h2, h3⟩ := hmi
                subst h1; subst h2; subst h3
                refine ⟨m, items, by simp, by rw [hrole, huser], hcont, hfc, ?_⟩
                intro j hj; omega
              | none =>
                simp only [hfc] at h
                refine skip h (fun items2 _ hc => ?_)
                rw [hcont] at hc
                have hii : items2 = items := by
                  have := (Option.some.injEq _ _).mp hc.symm
                  exact (ContentVal.list.injEq _ _).mp this
                rw [hii]; exact hfc
      · rw [if_neg huser] at h
        refine skip h (fun items2 hr2 _ => ?_)
        simp only [hrole] at hr2
        exact absurd ((Option.some.injEq _ _).mp hr2) huser

/-- The location found by the scanner names an existing image item. -/
theorem find_sound_item (msgs : List Message) (mi ci : Nat) (u : String)
    (h : find_image_in_messages msgs = .ok (some (mi, ci, u))) :
    ∃ m items item iu, msgs[mi]? = some m ∧ m.role? = some "user" ∧
      m.content? = some (.list items) ∧ items[ci]? = some item ∧
      item.type? = some "image_url" ∧ item.image_url? = some iu ∧
      iu.url? = some u := by
  obtain ⟨m, items, h1, h2, h3, h4, _⟩ := find_messages_sound msgs mi ci u h
  obtain ⟨item, iu, h5, h6, h7, h8, _⟩ := find_content_sound items ci u h4
  exact ⟨m, items, item, iu, h1, h2, h3, h5, h6, h7, h8⟩

/-! ## Lemmas about the payload mutations -/

theorem set_item_eq (msgs : List Message) (mi ci : Nat) (r : Option String)
    (m : Message) (items : List ContentItem) (item : ContentItem)
    (h1 : msgs[mi]? = some m) (h2 : m.content? = some (.list items))
    (h3 : items[ci]? = some item) :
    set_item msgs mi ci r =
      msgs.set mi
        { m with content? := some (.list (items.set ci (retype_item item r))) } := by
  unfold set_item
  simp only [h1, h2, h3]

theorem del_item_eq (msgs : List Message) (mi ci : Nat)
    (m : Message) (items : List ContentItem)
    (h1 : msgs[mi]? = some m) (h2 : m.content? = some (.list items)) :
    del_item msgs mi ci =
      msgs.set mi { m with content? := some (.list (items.eraseIdx ci)) } := by
  unfold del_item
  simp only [h1, h2]

theorem itemAt_set_item_other (msgs : List Message) (mi ci : Nat)
    (r : Option String) (m : Message) (items : List ContentItem)
    (item : ContentItem) (h1 : msgs[mi]? = some m)
    (h2 : m.content? = some (.list items)) (h3 : items[ci]? = some item) :
    ∀ j k, ¬(j = mi ∧ k = ci) →
      itemAt (set_item msgs mi ci r) j k = itemAt msgs j k := by
  intro j k hjk
  rw [set_item_eq msgs mi ci r m items item h1 h2 h3]
  by_cases hj : j = mi
  · have hk : k ≠ ci := fun hk2 => hjk ⟨hj, hk2⟩
    have hlen : mi < msgs.length := by
      by_contra hge
      rw [List.getElem?_eq_none (by omega)] at h1
      exact absurd h1 (by simp)
    rw [hj]
    simp only [itemAt, List.getElem?_set_self hlen, h1, h2,
      List.getElem?_set_ne (fun h => hk h.symm)]
  · simp only [itemAt, List.getElem?_set_ne (fun h => hj h.symm)]

theorem itemAt_set_item_self (msgs : List Message) (mi ci : Nat)
    (r : Option String) (m : Message) (items : List ContentItem)
    (item : ContentItem) (h1 : msgs[mi]? = some m)
    (h2 : m.content? = some (.list items)) (h3 : items[ci]? = some item) :
    itemAt (set_item msgs mi ci r) mi ci = some (retype_item item r) := by
  rw [set_item_eq msgs mi ci r m items item h1 h2 h3]
  have hmi : mi < msgs.length := by
    by_contra hge
    rw [List.getElem?_eq_none (by omega)] at h1
    exact absurd h1 (by simp)
  have hci : ci < items.length := by
    by_contra hge
    rw [List.getElem?_eq_none (by omega)] at h3
    exact absurd h3 (by simp)
  simp only [itemAt, List.getElem?_set_self hmi, List.getElem?_set_self hci]

/-! ## Branch equations of `inlet` -/

/-- `inlet` when an image is located in the first round: the OCR fetch runs
and its outcome decides between substitution and pass-through. -/
theorem inlet_first_round (v : Valves) (net : Nat → AttemptOutcome)
    (body : Body) (mi ci : Nat) (u : String)
    (hfind : find_image_in_messages (body.messages?.getD []) =
      .ok (some (mi, ci, u)))
    (hround : (body.messages?.getD []).length / 2 = 0) :
    inlet v net body =
      match perform_ocr v u net with
      | (tr, .raised _) => .ok (tr, body)
      | (tr, .returned result) =>
        .ok (tr, { body with
          messages? := some (set_item (body.messages?.getD []) mi ci result) }) := by
  unfold inlet
  simp only [hfind]
  rw [if_neg (by omega)]

/-- `inlet` when an image is located in a later round: the item is deleted
and no event is emitted. -/
theorem inlet_later_round (v : Valves) (net : Nat → AttemptOutcome)
    (body : Body) (mi ci : Nat) (u : String)
    (hfind : find_image_in_messages (body.messages?.getD []) =
      .ok (some (mi, ci, u)))
    (hround : 1 ≤ (body.messages?.getD []).length / 2) :
    inlet v net body =
      .ok ([], { body with
        messages? := some (del_item (body.messages?.getD []) mi ci) }) := by
  unfold inlet
  simp only [hfind]
  rw [if_pos hround]

/-! ## Claim C1: retry bound and terminal failure of the fetch -/

/-- **C1**: with `max_retries = R ≥ 1`, if the first `k < R` attempts fail
and attempt `k+1` (index `k`) succeeds with text `t`, `_perform_ocr` returns
`t` after exactly `k+1` network attempts; if all `R` attempts fail,
`_perform_ocr` makes exactly `R` attempts and raises a `RuntimeError`
wrapping the last underlying cause.  Attempt-level failures leave no other
observable trace: the result carries only the last cause and the trace
contains only attempts and status notifications. -/
theorem c1_retry_bound (v : Valves) (image : String)
    (net : Nat → AttemptOutcome) (hR : 1 ≤ v.max_retries) :
    (∀ (k : Nat) (t : String), (k : Int) < v.max_retries →
      (∀ i, i < k → ∃ e, net i = .fail e) → net k = .ok t →
      (perform_ocr v image net).2 = .returned (some t) ∧
      attemptsOf (perform_ocr v image net).1 = k + 1) ∧
    (∀ e : String,
      (∀ i : Nat, (i : Int) < v.max_retries → ∃ c, net i = .fail c) →
      net (v.max_retries.toNat - 1) = .fail e →
      (perform_ocr v image net).2 = .raised ("OCR识别失败：" ++ e) ∧
      attemptsOf (perform_ocr v image net).1 = v.max_retries.toNat) := by
  have hn : ((v.max_retries.toNat : Nat) : Int) = v.max_retries :=
    Int.toNat_of_nonneg (by omega)
  constructor
  · intro k t hk hfail hok
    have hkn : k < v.max_retries.toNat := by omega
    have hrange : List.range v.max_retries.toNat =
        List.range' 0 (k + (v.max_retries.toNat - k)) := by
      rw [List.range_eq_range']
      congr 1
      omega
    have hskip := ocrLoop_skip net (build_ocr_request v image) v.max_retries
      k 0 (v.max_retries.toNat - k)
      (fun i hi => by simpa using hfail i hi)
      (fun i hi => by push_cast; omega)
    have htail : List.range' (0 + k) (v.max_retries.toNat - k) =
        k :: List.range' (k + 1) (v.max_retries.toNat - k - 1) := by
      have hm : v.max_retries.toNat - k = (v.max_retries.toNat - k - 1) + 1 := by
        omega
      rw [hm, List.range'_succ]
      simp
    have hloop : ocrLoop net (build_ocr_request v image) v.max_retries
        (k :: List.range' (k + 1) (v.max_retries.toNat - k - 1)) =
        ([.netAttempt k (build_ocr_request v image), .status successDesc true],
         .returned (some t)) := by
      simp [ocrLoop, hok]
    rw [htail, hloop] at hskip
    have hperf : perform_ocr v image net =
        (.status processingDesc false ::
          ((List.range' 0 k).map
            (fun a => Event.netAttempt a (build_ocr_request v image)) ++
           [.netAttempt k (build_ocr_request v image),
            .status successDesc true]),
         .returned (some t)) := by
      rw [perform_ocr_eq, hrange, hskip]
    rw [hperf]
    refine ⟨rfl, ?_⟩
    rw [attemptsOf_status, attemptsOf_append, attemptsOf_map,
      attemptsOf_net, attemptsOf_status, List.length_range']
    rfl
  · intro e hall hlast
    have hn1 : 1 ≤ v.max_retries.toNat := by omega
    have hrange : List.range v.max_retries.toNat =
        List.range' 0 ((v.max_retries.toNat - 1) + 1) := by
      rw [List.range_eq_range']
      congr 1
      omega
    have hskip := ocrLoop_skip net (build_ocr_request v image) v.max_retries
      (v.max_retries.toNat - 1) 0 1
      (fun i hi => by
        have hi2 : (i : Int) < v.max_retries := by omega
        simpa using hall i hi2)
      (fun i hi => by push_cast; omega)
    have htail : List.range' (0 + (v.max_retries.toNat - 1)) 1 =
        [v.max_retries.toNat - 1] := by
      simp [List.range'_succ, List.range']
    have hcond : ((v.max_retries.toNat - 1 : Nat) : Int) =
        v.max_retries - 1 := by omega
    have hloop : ocrLoop net (build_ocr_request v image) v.max_retries
        [v.max_retries.toNat - 1] =
        ([.netAttempt (v.max_retries.toNat - 1) (build_ocr_request v image)],
         .raised ("OCR识别失败：" ++ e)) := by
      simp [ocrLoop, hlast, hcond]
    rw [htail, hloop] at hskip
    have hperf : perform_ocr v image net =
        (.status processingDesc false ::
          ((List.range' 0 (v.max_retries.toNat - 1)).map
            (fun a => Event.netAttempt a (build_ocr_request v image)) ++
           [.netAttempt (v.max_retries.toNat - 1) (build_ocr_request v image)]),
         .raised ("OCR识别失败：" ++ e)) := by
      rw [perform_ocr_eq, hrange, hskip]
    rw [hperf]
    refine ⟨rfl, ?_⟩
    rw [attemptsOf_status, attemptsOf_append, attemptsOf_map,
      attemptsOf_net, List.length_range']
    simp [attemptsOf, List.filter]
    omega

def c1V : Valves :=
  { priority := 0, OCR_Base_URL := "http://b", OCR_API_KEY := "k"
    max_retries := 3, ocr_prompt := "p", model_name := "m" }

def c1NetMixed : Nat → AttemptOutcome :=
  fun a => if a < 2 then .fail "boom" else .ok "hello"

def c1NetFail : Nat → AttemptOutcome := fun _ => .fail "boom"

/-- Witness for C1: with `max_retries = 3`, two failures then a success
yield the text after 3 attempts, and three failures yield the wrapped
`RuntimeError` after 3 attempts. -/
theorem c1_retry_bound_witness :
    ((perform_ocr c1V "img" c1NetMixed).2 = .returned (some "hello") ∧
     attemptsOf (perform_ocr c1V "img" c1NetMixed).1 = 3) ∧
    ((perform_ocr c1V "img" c1NetFail).2 = .raised ("OCR识别失败：boom") ∧
     attemptsOf (perform_ocr c1V "img" c1NetFail).1 = 3) :=
  ⟨(c1_retry_bound c1V "img" c1NetMixed (by decide)).1 2 "hello" (by decide)
      (fun i hi => ⟨"boom", by simp [c1NetMixed, hi]⟩) (by decide),
   (c1_retry_bound c1V "img" c1NetFail (by decide)).2 "boom"
      (fun i _ => ⟨"boom", rfl⟩) rfl⟩

/-! ## Claim C7: notification ordering -/

/-- **C7**: every fetch call emits the processing notification (done=false)
as its first event, before any network attempt; on success the trace is the
processing notification, then only network attempts, then the success
notification (done=true) as the final event before returning; on a raised
terminal failure the trace contains no event after the network attempts —
in particular no notification follows the failure. -/
theorem c7_notification_ordering (v : Valves) (image : String)
    (net : Nat → AttemptOutcome) :
    (perform_ocr v image net).1.head? =
      some (.status processingDesc false) ∧
    (∀ t : String, (perform_ocr v image net).2 = .returned (some t) →
      ∃ as : List Nat, (perform_ocr v image net).1 =
        .status processingDesc false ::
          (as.map (fun a => Event.netAttempt a (build_ocr_request v image)) ++
           [.status successDesc true])) ∧
    (∀ e : String, (perform_ocr v image net).2 = .raised e →
      ∃ as : List Nat, (perform_ocr v image net).1 =
        .status processingDesc false ::
          as.map (fun a => Event.netAttempt a (build_ocr_request v image))) := by
  refine ⟨by rw [perform_ocr_eq]; rfl, ?_, ?_⟩
  · intro t ht
    rcases ocrLoop_shape net (build_ocr_request v image) v.max_retries
        (List.range v.max_retries.toNat) with ⟨as, t2, h⟩ | ⟨as, e2, h⟩ | ⟨as, h⟩
    · exact ⟨as, by rw [perform_ocr_eq, h]⟩
    · rw [perform_ocr_eq, h] at ht
      exact absurd ht (by simp)
    · rw [perform_ocr_eq, h] at ht
      exact absurd ht (by simp)
  · intro e he
    rcases ocrLoop_shape net (build_ocr_request v image) v.max_retries
        (List.range v.max_retries.toNat) with ⟨as, t2, h⟩ | ⟨as, e2, h⟩ | ⟨as, h⟩
    · rw [perform_ocr_eq, h] at he
      exact absurd he (by simp)
    · exact ⟨as, by rw [perform_ocr_eq, h]⟩
    · rw [perform_ocr_eq, h] at he
      exact absurd he (by simp)

def c7V : Valves :=
  { priority := 0, OCR_Base_URL := "http://b", OCR_API_KEY := "k"
    max_retries := 3, ocr_prompt := "p", model_name := "m" }

def c7NetOk : Nat → AttemptOutcome := fun _ => .ok "text"

def c7NetFail : Nat → AttemptOutcome := fun _ => .fail "down"

/-- Witness for C7 at a succeeding and at an exhausting fetch. -/
theorem c7_notification_ordering_witness :
    (∃ as : List Nat, (perform_ocr c7V "img" c7NetOk).1 =
      .status processingDesc false ::
        (as.map (fun a => Event.netAttempt a (build_ocr_request c7V "img")) ++
         [.status successDesc true])) ∧
    (∃ as : List Nat, (perform_ocr c7V "img" c7NetFail).1 =
      .status processingDesc false ::
        as.map (fun a => Event.netAttempt a (build_ocr_request c7V "img"))) :=
  ⟨(c7_notification_ordering c7V "img" c7NetOk).2.1 "text" (by decide),
   (c7_notification_ordering c7V "img" c7NetFail).2.2 "OCR识别失败：down"
      (by decide)⟩

/-! ## Claim C8: shape of every network attempt -/

/-- **C8**: every network attempt of `_perform_ocr` posts to
`{base_url}/v1/chat/completions` with `Authorization: Bearer <key>`, JSON
content type, the configured model, and exactly two messages: a system
message carrying the OCR prompt as one text item, and a user message whose
content is the prompt text item followed by an `image_url` item with the
located image URL at detail `"high"`. -/
theorem c8_request_shape (v : Valves) (image : String)
    (net : Nat → AttemptOutcome) (a : Nat) (req : OcrRequest)
    (hmem : Event.netAttempt a req ∈ (perform_ocr v image net).1) :
    req.url = v.OCR_Base_URL ++ "/v1/chat/completions" ∧
    req.contentType = "application/json" ∧
    req.authorization = "Bearer " ++ v.OCR_API_KEY ∧
    req.model = v.model_name ∧
    req.messages =
      [ { role := "system", content := [.text v.ocr_prompt] }
      , { role := "user"
          content := [ .text v.ocr_prompt
                     , .image_url { url := image, detail := "high" } ] } ] := by
  have hreq : req = build_ocr_request v image := by
    rw [perform_ocr_eq] at hmem
    rcases List.mem_cons.mp hmem with h | h
    · exact absurd h (by simp)
    · exact ocrLoop_req net (build_ocr_request v image) v.max_retries
        (List.range v.max_retries.toNat) a req h
  subst hreq
  exact ⟨rfl, rfl, rfl, rfl, rfl⟩

def c8V : Valves :=
  { priority := 0, OCR_Base_URL := "https://api.example.com"
    OCR_API_KEY := "secret", max_retries := 2, ocr_prompt := "extract"
    model_name := "vision-model" }

def c8Net : Nat → AttemptOutcome := fun _ => .ok "t"

/-- Witness for C8 at the first attempt of a concrete fetch call. -/
theorem c8_request_shape_witness :
    (build_ocr_request c8V "data:img").url =
      c8V.OCR_Base_URL ++ "/v1/chat/completions" ∧
    (build_ocr_request c8V "data:img").contentType = "application/json" ∧
    (build_ocr_request c8V "data:img").authorization =
      "Bearer " ++ c8V.OCR_API_KEY ∧
    (build_ocr_request c8V "data:img").model = c8V.model_name ∧
    (build_ocr_request c8V "data:img").messages =
      [ { role := "system", content := [.text c8V.ocr_prompt] }
      , { role := "user"
          content := [ .text c8V.ocr_prompt
                     , .image_url { url := "data:img", detail := "high" } ] } ] :=
  c8_request_shape c8V "data:img" c8Net 0 (build_ocr_request c8V "data:img")
    (by decide)

/-! ## Claim C2: in-place substitution on first-round fetch success -/

/-- **C2**: on a first-round payload (`len(messages) // 2 == 0`) with a
located image, when the fetch succeeds with text `t`, `inlet` mutates
exactly the located content item: its type tag becomes `"text"`, its text
field equals `t`, its `image_url` field is removed, and every other message
and content item is unchanged (other messages are identical; the located
message keeps its role and every other item). -/
theorem c2_success_substitution (v : Valves) (net : Nat → AttemptOutcome)
    (body : Body) (mi ci : Nat) (u t : String)
    (hfind : find_image_in_messages (body.messages?.getD []) =
      .ok (some (mi, ci, u)))
    (hround : (body.messages?.getD []).length / 2 = 0)
    (hfetch : (perform_ocr v u net).2 = .returned (some t)) :
    inlet v net body =
      .ok ((perform_ocr v u net).1,
        { messages? := some (set_item (body.messages?.getD []) mi ci (some t)) }) ∧
    (resultMessages (inlet v net body)).length =
      (body.messages?.getD []).length ∧
    (∀ j, j ≠ mi →
      (resultMessages (inlet v net body))[j]? = (body.messages?.getD [])[j]?) ∧
    (∀ j k, ¬(j = mi ∧ k = ci) →
      itemAt (resultMessages (inlet v net body)) j k =
        itemAt (body.messages?.getD []) j k) ∧
    (∃ item, itemAt (body.messages?.getD []) mi ci = some item ∧
      itemAt (resultMessages (inlet v net body)) mi ci =
        some { item with type? := some "text", image_url? := none,
                         text? := some (some t) }) ∧
    Option.map Message.role? (resultMessages (inlet v net body))[mi]? =
      Option.map Message.role? (body.messages?.getD [])[mi]? := by
  obtain ⟨m, items, item, iu, hg, hr, hc, hi, hty, hiu, hurl⟩ :=
    find_sound_item (body.messages?.getD []) mi ci u hfind
  have hlen : mi < (body.messages?.getD []).length := by
    by_contra hge
    rw [List.getElem?_eq_none (by omega)] at hg
    exact absurd hg (by simp)
  rcases hperf : perform_ocr v u net with ⟨tr, res⟩
  rw [hperf] at hfetch
  simp only at hfetch
  subst hfetch
  have hinlet : inlet v net body =
      .ok (tr,
        { messages? := some (set_item (body.messages?.getD []) mi ci (some t)) }) := by
    rw [inlet_first_round v net body mi ci u hfind hround, hperf]
  have hmsgs : resultMessages (inlet v net body) =
      set_item (body.messages?.getD []) mi ci (some t) := by
    rw [hinlet]
    rfl
  refine ⟨by rw [hinlet], ?_, ?_, ?_, ?_, ?_⟩
  · rw [hmsgs, set_item_eq _ mi ci (some t) m items item hg hc hi,
      List.length_set]
  · intro j hj
    rw [hmsgs, set_item_eq _ mi ci (some t) m items item hg hc hi]
    exact List.getElem?_set_ne (fun h => hj h.symm)
  · intro j k hjk
    rw [hmsgs]
    exact itemAt_set_item_other _ mi ci (some t) m items item hg hc hi j k hjk
  · refine ⟨item, by simp only [itemAt, hg, hc, hi], ?_⟩
    rw [hmsgs]
    exact itemAt_set_item_self _ mi ci (some t) m items item hg hc hi
  · rw [hmsgs, set_item_eq _ mi ci (some t) m items item hg hc hi,
      List.getElem?_set_self hlen, hg]
    rfl

def c2V : Valves :=
  { priority := 0, OCR_Base_URL := "http://b", OCR_API_KEY := "k"
    max_retries := 3, ocr_prompt := "p", model_name := "m" }

def c2Net : Nat → AttemptOutcome := fun _ => .ok "Invoice #42"

def c2Img : ContentItem :=
  { type? := some "image_url", text? := none
    image_url? := some { url? := some "data:x" } }

def c2Body : Body :=
  { messages? := some
      [ { role? := some "user", content? := some (.list [c2Img]) } ] }

/-- Witness for C2 on the invoice scenario of the spec. -/
theorem c2_success_substitution_witness :
    inlet c2V c2Net c2Body =
      .ok ((perform_ocr c2V "data:x" c2Net).1,
        { messages? :=
            some (set_item (c2Body.messages?.getD []) 0 0
              (some "Invoice #42")) }) ∧
    itemAt (resultMessages (inlet c2V c2Net c2Body)) 0 0 =
      some { c2Img with type? := some "text", image_url? := none,
                        text? := some (some "Invoice #42") } := by
  have h := c2_success_substitution c2V c2Net c2Body 0 0 "data:x" "Invoice #42"
    (by decide) (by decide) (by decide)
  refine ⟨h.1, ?_⟩
  obtain ⟨item, hi1, hi2⟩ := h.2.2.2.2.1
  exact hi2

/-! ## Claim C3: graceful degradation on fetch failure -/

/-- **C3**: on a first-round payload with a located image, when the fetch
raises its terminal error, `inlet` swallows the error and returns the very
same payload object, unmodified (the original image item included). -/
theorem c3_failure_passthrough (v : Valves) (net : Nat → AttemptOutcome)
    (body : Body) (mi ci : Nat) (u e : String)
    (hfind : find_image_in_messages (body.messages?.getD []) =
      .ok (some (mi, ci, u)))
    (hround : (body.messages?.getD []).length / 2 = 0)
    (hfetch : (perform_ocr v u net).2 = .raised e) :
    inlet v net body = .ok ((perform_ocr v u net).1, body) := by
  rcases hperf : perform_ocr v u net with ⟨tr, res⟩
  rw [hperf] at hfetch
  simp only at hfetch
  subst hfetch
  rw [inlet_first_round v net body mi ci u hfind hround, hperf]

def c3V : Valves :=
  { priority := 0, OCR_Base_URL := "http://b", OCR_API_KEY := "k"
    max_retries := 3, ocr_prompt := "p", model_name := "m" }

def c3Net : Nat → AttemptOutcome := fun _ => .fail "500"

def c3Body : Body :=
  { messages? := some
      [ { role? := some "user", content? := some (.list
          [ { type? := some "image_url", text? := none
              image_url? := some { url? := some "data:x" } } ]) } ] }

/-- Witness for C3: the endpoint fails on all attempts and the payload
comes back untouched. -/
theorem c3_failure_passthrough_witness :
    inlet c3V c3Net c3Body = .ok ((perform_ocr c3V "data:x" c3Net).1, c3Body) :=
  c3_failure_passthrough c3V c3Net c3Body 0 0 "data:x" "OCR识别失败：500"
    (by decide) (by decide) (by decide)

/-! ## Claim C4: later-round removal without fetching -/

/-- **C4**: when an image is located and `len(messages) // 2 >= 1`, `inlet`
deletes the located content item from its message (the content list shrinks
by one, no text is substituted), emits no event and performs no network
call (the returned trace is empty), and returns the mutated payload. -/
theorem c4_later_round (v : Valves) (net : Nat → AttemptOutcome)
    (body : Body) (mi ci : Nat) (u : String)
    (hfind : find_image_in_messages (body.messages?.getD []) =
      .ok (some (mi, ci, u)))
    (hround : 1 ≤ (body.messages?.getD []).length / 2) :
    inlet v net body =
      .ok ([], { messages? := some (del_item (body.messages?.getD []) mi ci) }) ∧
    ∃ m items, (body.messages?.getD [])[mi]? = some m ∧
      m.content? = some (.list items) ∧ ci < items.length ∧
      del_item (body.messages?.getD []) mi ci =
        (body.messages?.getD []).set mi
          { m with content? := some (.list (items.eraseIdx ci)) } ∧
      (items.eraseIdx ci).length + 1 = items.length := by
  obtain ⟨m, items, item, iu, hg, hr, hc, hi, hty, hiu, hurl⟩ :=
    find_sound_item (body.messages?.getD []) mi ci u hfind
  have hci : ci < items.length := by
    by_contra hge
    rw [List.getElem?_eq_none (by omega)] at hi
    exact absurd hi (by simp)
  refine ⟨inlet_later_round v net body mi ci u hfind hround,
    m, items, hg, hc, hci, del_item_eq _ mi ci m items hg hc, ?_⟩
  rw [List.length_eraseIdx, if_pos hci]
  omega

def c4V : Valves :=
  { priority := 0, OCR_Base_URL := "http://b", OCR_API_KEY := "k"
    max_retries := 3, ocr_prompt := "p", model_name := "m" }

def c4Net : Nat → AttemptOutcome := fun _ => .ok "never used"

def c4Body : Body :=
  { messages? := some
      [ { role? := some "user", content? := some (.list
          [ { type? := some "image_url", text? := none
              image_url? := some { url? := some "data:x" } } ]) }
      , { role? := some "assistant", content? := some (.scalar "reply") } ] }

/-- Witness for C4: two messages present (turn count 1), the image item is
deleted, no event is emitted. -/
theorem c4_later_round_witness :
    inlet c4V c4Net c4Body =
      .ok ([], { messages? := some (del_item (c4Body.messages?.getD []) 0 0) }) :=
  (c4_later_round c4V c4Net c4Body 0 0 "data:x" (by decide) (by decide)).1

/-! ## Claim C6: only the first image position is acted upon -/

/-- **C6**: whatever branch `inlet` takes after locating the first image
(by message order, then content order), every other position is untouched:
in the substitution branch every item other than the located one is
unchanged; in the removal branch every other message is unchanged and the
items of the located message other than the deleted one are preserved (those
after it shift down by one position). -/
theorem c6_first_image_only (v : Valves) (net : Nat → AttemptOutcome)
    (body : Body) (mi ci : Nat) (u : String)
    (hfind : find_image_in_messages (body.messages?.getD []) =
      .ok (some (mi, ci, u))) :
    ((body.messages?.getD []).length / 2 = 0 →
      ∀ j k, ¬(j = mi ∧ k = ci) →
        itemAt (resultMessages (inlet v net body)) j k =
          itemAt (body.messages?.getD []) j k) ∧
    (1 ≤ (body.messages?.getD []).length / 2 →
      (∀ j, j ≠ mi →
        (resultMessages (inlet v net body))[j]? =
          (body.messages?.getD [])[j]?) ∧
      (∀ k, k < ci →
        itemAt (resultMessages (inlet v net body)) mi k =
          itemAt (body.messages?.getD []) mi k) ∧
      (∀ k, ci < k →
        itemAt (resultMessages (inlet v net body)) mi (k - 1) =
          itemAt (body.messages?.getD []) mi k)) := by
  obtain ⟨m, items, item, iu, hg, hr, hc, hi, hty, hiu, hurl⟩ :=
    find_sound_item (body.messages?.getD []) mi ci u hfind
  have hlen : mi < (body.messages?.getD []).length := by
    by_contra hge
    rw [List.getElem?_eq_none (by omega)] at hg
    exact absurd hg (by simp)
  constructor
  · intro hround j k hjk
    rcases hperf : perform_ocr v u net with ⟨tr, res⟩
    cases res with
    | raised e =>
      have hmsgs : resultMessages (inlet v net body) =
          body.messages?.getD [] := by
        rw [inlet_first_round v net body mi ci u hfind hround, hperf]
        rfl
      rw [hmsgs]
    | returned r =>
      have hmsgs : resultMessages (inlet v net body) =
          set_item (body.messages?.getD []) mi ci r := by
        rw [inlet_first_round v net body mi ci u hfind hround, hperf]
        rfl
      rw [hmsgs]
      exact itemAt_set_item_other _ mi ci r m items item hg hc hi j k hjk
  · intro hround
    have hmsgs : resultMessages (inlet v net body) =
        del_item (body.messages?.getD []) mi ci := by
      rw [inlet_later_round v net body mi ci u hfind hround]
      rfl
    have hdel := del_item_eq (body.messages?.getD []) mi ci m items hg hc
    refine ⟨?_, ?_, ?_⟩
    · intro j hj
      rw [hmsgs, hdel]
      exact List.getElem?_set_ne (fun h => hj h.symm)
    · intro k hk
      rw [hmsgs, hdel]
      simp only [itemAt, List.getElem?_set_self hlen, hg, hc,
        List.getElem?_eraseIdx]
      rw [if_pos hk]
    · intro k hk
      rw [hmsgs, hdel]
      simp only [itemAt, List.getElem?_set_self hlen, hg, hc,
        List.getElem?_eraseIdx]
      rw [if_neg (by omega)]
      congr 1
      omega

def c6V : Valves :=
  { priority := 0, OCR_Base_URL := "http://b", OCR_API_KEY := "k"
    max_retries := 3, ocr_prompt := "p", model_name := "m" }

def c6Net : Nat → AttemptOutcome := fun _ => .ok "first"

def c6ImgA : ContentItem :=
  { type? := some "image_url", text? := none
    image_url? := some { url? := some "img:a" } }

def c6ImgB : ContentItem :=
  { type? := some "image_url", text? := none
    image_url? := some { url? := some "img:b" } }

def c6Body : Body :=
  { messages? := some
      [ { role? := some "user", content? := some (.list [c6ImgA, c6ImgB]) } ] }

def c6Body2 : Body :=
  { messages? := some
      [ { role? := some "user", content? := some (.list [c6ImgA, c6ImgB]) }
      , { role? := some "assistant", content? := some (.scalar "reply") } ] }

/-- Witness for C6: with two images in the first user message, the second
image item is untouched by the substitution branch, and in the later-round
removal branch it is preserved (shifted to index 0). -/
theorem c6_first_image_only_witness :
    itemAt (resultMessages (inlet c6V c6Net c6Body)) 0 1 =
      itemAt (c6Body.messages?.getD []) 0 1 ∧
    itemAt (resultMessages (inlet c6V c6Net c6Body2)) 0 (2 - 1) =
      itemAt (c6Body2.messages?.getD []) 0 2 ∧
    itemAt (resultMessages (inlet c6V c6Net c6Body2)) 0 (1 - 1) =
      itemAt (c6Body2.messages?.getD []) 0 1 := by
  refine ⟨?_, ?_, ?_⟩
  · exact (c6_first_image_only c6V c6Net c6Body 0 0 "img:a" (by decide)).1
      (by decide) 0 1 (by decide)
  · exact (((c6_first_image_only c6V c6Net c6Body2 0 0 "img:a"
      (by decide)).2 (by decide)).2.2) 2 (by decide)
  · exact (((c6_first_image_only c6V c6Net c6Body2 0 0 "img:a"
      (by decide)).2 (by decide)).2.2) 1 (by decide)

/-! ## Claim C9: non-positive `max_retries` -/

/-- **C9**: if the configured `max_retries` is `≤ 0` (violating the
documented `int ≥ 1` constraint), the `range` of the retry loop is empty, so
`_perform_ocr` performs no network attempt and falls through to Python's
implicit `return None`; a first-round `inlet` call with a located image then
still retypes the located item to text-kind with its text field set to
`None`. -/
theorem c9_nonpositive_retries (v : Valves) (image : String)
    (net : Nat → AttemptOutcome) (body : Body) (mi ci : Nat) (u : String)
    (hR : v.max_retries ≤ 0) :
    perform_ocr v image net =
      ([.status processingDesc false], .returned none) ∧
    (find_image_in_messages (body.messages?.getD []) =
        .ok (some (mi, ci, u)) →
      (body.messages?.getD []).length / 2 = 0 →
      ∃ item, itemAt (body.messages?.getD []) mi ci = some item ∧
        inlet v net body =
          .ok ([.status processingDesc false],
            { messages? := some (set_item (body.messages?.getD []) mi ci none) }) ∧
        itemAt (resultMessages (inlet v net body)) mi ci =
          some { item with type? := some "text", image_url? := none,
                           text? := some none }) := by
  have hzero : v.max_retries.toNat = 0 := Int.toNat_of_nonpos hR
  have hperf : ∀ img : String, perform_ocr v img net =
      ([.status processingDesc false], .returned none) := by
    intro img
    rw [perform_ocr_eq, hzero]
    rfl
  refine ⟨hperf image, ?_⟩
  intro hfind hround
  obtain ⟨m, items, item, iu, hg, hr, hc, hi, hty, hiu, hurl⟩ :=
    find_sound_item (body.messages?.getD []) mi ci u hfind
  have hinlet : inlet v net body =
      .ok ([.status processingDesc false],
        { messages? := some (set_item (body.messages?.getD []) mi ci none) }) := by
    rw [inlet_first_round v net body mi ci u hfind hround, hperf u]
  have hmsgs : resultMessages (inlet v net body) =
      set_item (body.messages?.getD []) mi ci none := by
    rw [hinlet]
    rfl
  refine ⟨item, by simp only [itemAt, hg, hc, hi], hinlet, ?_⟩
  rw [hmsgs]
  exact itemAt_set_item_self _ mi ci none m items item hg hc hi

def c9V : Valves :=
  { priority := 0, OCR_Base_URL := "http://b", OCR_API_KEY := "k"
    max_retries := 0, ocr_prompt := "p", model_name := "m" }

def c9Net : Nat → AttemptOutcome := fun _ => .ok "never reached"

def c9Img : ContentItem :=
  { type? := some "image_url", text? := none
    image_url? := some { url? := some "data:x" } }

def c9Body : Body :=
  { messages? := some
      [ { role? := some "user", content? := some (.list [c9Img]) } ] }

/-- Witness for C9 with `max_retries = 0`: zero attempts, `None` result,
and the located item ends up text-typed with text `None`. -/
theorem c9_nonpositive_retries_witness :
    perform_ocr c9V "img" c9Net =
      ([.status processingDesc false], .returned none) ∧
    itemAt (resultMessages (inlet c9V c9Net c9Body)) 0 0 =
      some { c9Img with type? := some "text", image_url? := none,
                        text? := some none } := by
  have h := c9_nonpositive_retries c9V "img" c9Net c9Body 0 0 "data:x"
    (by decide)
  refine ⟨h.1, ?_⟩
  obtain ⟨item, hi1, hi2, hi3⟩ := h.2 (by decide) (by decide)
  exact hi3

/-! ## Claim C5: the scanner's contract -/

/-- Well-formedness of one content item for the scanner: the `"type"` key is
present, and an image-typed item has an `"image_url"` object with a `"url"`
key. -/
def itemWF (it : ContentItem) : Bool :=
  match it.type? with
  | none => false
  | some ty =>
    if ty = "image_url" then
      match it.image_url? with
      | none => false
      | some iu => iu.url?.isSome
    else true

/-- Well-formedness of one message for the scanner: the `"role"` key is
present, and a user message with list content has well-formed items. -/
def messageWF (m : Message) : Bool :=
  match m.role? with
  | none => false
  | some r =>
    if r = "user" then
      match m.content? with
      | some (.list items) => items.all itemWF
      | _ => true
    else true

/-- Well-formedness of a message list for the scanner. -/
def scanWF (msgs : List Message) : Bool := msgs.all messageWF

/-- Modelled from the spec: a message that the scanner inspects item by
item — a user message whose content is sequence-valued. -/
def isSeqUser (m : Message) : Bool :=
  match m.content? with
  | some (.list _) => decide (m.role? = some "user")
  | _ => false

/-- The content items of a message with sequence-valued content. -/
def seqItems (m : Message) : List ContentItem :=
  match m.content? with
  | some (.list items) => items
  | _ => []

/-- Modelled from the spec: the first image-kind item of a content list,
with its index and URL (empty string when the image fields are missing,
which cannot happen on well-formed input). -/
def firstImageInItems : List ContentItem → Option (Nat × String)
  | [] => none
  | item :: rest =>
    if item.type? = some "image_url" then
      some (0, ((item.image_url?.map fun iu => iu.url?.getD "").getD ""))
    else (firstImageInItems rest).map fun p => (p.1 + 1, p.2)

/-- Modelled from the claim's literal wording: the `ImageLocation` of the
first image-kind content item inside the **first** user message whose
content is sequence-valued; absence when that message contains no image
item (later messages are never consulted once a sequence-valued user
message has been seen). -/
def spec_first_image_literal : List Message → Option (Nat × Nat × String)
  | [] => none
  | m :: rest =>
    if isSeqUser m then
      (firstImageInItems (seqItems m)).map fun p => (0, p.1, p.2)
    else
      (spec_first_image_literal rest).map fun p => (p.1 + 1, p.2.1, p.2.2)

/-- Modelled from the amended claim: the `ImageLocation` of the first
image-kind content item found scanning all user messages with
sequence-valued content, in message order and then content order. -/
def spec_first_image_scan : List Message → Option (Nat × Nat × String)
  | [] => none
  | m :: rest =>
    if isSeqUser m then
      match firstImageInItems (seqItems m) with
      | some (ci, u) => some (0, ci, u)
      | none => (spec_first_image_scan rest).map fun p => (p.1 + 1, p.2.1, p.2.2)
    else (spec_first_image_scan rest).map fun p => (p.1 + 1, p.2.1, p.2.2)

theorem shiftContent_ok (o : Option (Nat × String)) :
    shiftContent (.ok o) = .ok (o.map fun p => (p.1 + 1, p.2)) := by
  cases o with
  | none => rfl
  | some p => obtain ⟨ci, u⟩ := p; rfl

theorem shiftMessage_ok (o : Option (Nat × Nat × String)) :
    shiftMessage (.ok o) = .ok (o.map fun p => (p.1 + 1, p.2.1, p.2.2)) := by
  cases o with
  | none => rfl
  | some p => obtain ⟨mi, ci, u⟩ := p; rfl

/-- On well-formed items the inner scan agrees with the spec-side first
image function. -/
theorem find_content_wf :
    ∀ items : List ContentItem, items.all itemWF = true →
      find_image_in_content items = .ok (firstImageInItems items) := by
  intro items
  induction items with
  | nil => intro _; rfl
  | cons item rest ih =>
    intro hwf
    rw [List.all_cons, Bool.and_eq_true] at hwf
    obtain ⟨hit, hrest⟩ := hwf
    rw [itemWF] at hit
    cases hty : item.type? with
    | none => simp [hty] at hit
    | some ty =>
      simp only [hty] at hit
      by_cases himg : ty = "image_url"
      · rw [if_pos himg] at hit
        cases hiu : item.image_url? with
        | none => simp [hiu] at hit
        | some iu =>
          simp only [hiu] at hit
          obtain ⟨u0, hurl⟩ := Option.isSome_iff_exists.mp hit
          have hty3 : item.type? = some "image_url" := by rw [hty, himg]
          simp [find_image_in_content, firstImageInItems, hty, himg, hty3,
            hiu, hurl]
      · have hty2 : ¬item.type? = some "image_url" := by
          rw [hty]
          intro hcon
          exact himg ((Option.some.injEq _ _).mp hcon)
        rw [find_image_in_content]
        simp only [hty, if_neg himg]
        rw [ih hrest, shiftContent_ok]
        rw [firstImageInItems]
        rw [if_neg hty2]

/-- On well-formed messages the scanner agrees with the spec-side scan over
all sequence-valued user messages (the amended C5 contract). -/
theorem find_messages_wf :
    ∀ msgs : List Message, scanWF msgs = true →
      find_image_in_messages msgs = .ok (spec_first_image_scan msgs) := by
  intro msgs
  induction msgs with
  | nil => intro _; rfl
  | cons m rest ih =>
    intro hwf
    rw [scanWF, List.all_cons, Bool.and_eq_true] at hwf
    obtain ⟨hm, hrest⟩ := hwf
    have ihr := ih hrest
    rw [messageWF] at hm
    cases hrole : m.role? with
    | none => simp [hrole] at hm
    | some r =>
      simp only [hrole] at hm
      by_cases huser : r = "user"
      · rw [if_pos huser] at hm
        have hrole2 : m.role? = some "user" := by rw [hrole, huser]
        cases hcont : m.content? with
        | none =>
          have hseq : isSeqUser m = false := by rw [isSeqUser]; rw [hcont]
          rw [find_image_in_messages]
          simp only [hrole, if_pos huser, hcont]
          rw [ihr, shiftMessage_ok, spec_first_image_scan]
          rw [hseq]
          rfl
        | some cv =>
          cases cv with
          | scalar sc =>
            have hseq : isSeqUser m = false := by rw [isSeqUser]; rw [hcont]
            rw [find_image_in_messages]
            simp only [hrole, if_pos huser, hcont]
            rw [ihr, shiftMessage_ok, spec_first_image_scan]
            rw [hseq]
            rfl
          | list items =>
            simp only [hcont] at hm
            have hseq : isSeqUser m = true := by
              rw [isSeqUser]; rw [hcont]
              simp [hrole2]
            have hitems : seqItems m = items := by rw [seqItems]; rw [hcont]
            rw [find_image_in_messages]
            simp only [hrole, if_pos huser, hcont]
            rw [find_content_wf items hm]
            rw [spec_first_image_scan]
            rw [hseq, hitems]
            simp only [if_pos rfl]
            cases hfi : firstImageInItems items with
            | none =>
              rw [ihr, shiftMessage_ok]
              simp
            | some p =>
              obtain ⟨ci, u⟩ := p
              rfl
      · have hseq : isSeqUser m = false := by
          rw [isSeqUser]
          cases hcont : m.content? with
          | none => rfl
          | some cv =>
            cases cv with
            | scalar sc => rfl
            | list items =>
              simp [hrole, huser]
        rw [find_image_in_messages]
        simp only [hrole, if_neg huser]
        rw [ihr, shiftMessage_ok, spec_first_image_scan]
        rw [hseq]
        rfl

def c5TextItem : ContentItem :=
  { type? := some "text", text? := some (some "hi"), image_url? := none }

def c5ImgItem : ContentItem :=
  { type? := some "image_url", text? := none
    image_url? := some { url? := some "img:b" } }

def c5FirstMsg : Message :=
  { role? := some "user", content? := some (.list [c5TextItem]) }

def c5SecondMsg : Message :=
  { role? := some "user", content? := some (.list [c5ImgItem]) }

def c5Msgs : List Message := [c5FirstMsg, c5SecondMsg]

/-- Counterexample to C5 as stated: in `c5Msgs` the first user message with
sequence-valued content (index 0) contains no image-kind item, so the claim
requires absence; the scanner instead keeps scanning and returns the image
found in the second message.  The literal spec-side function disagrees with
the code on this input. -/
theorem c5_scanner_counterexample :
    isSeqUser c5FirstMsg = true ∧
    firstImageInItems (seqItems c5FirstMsg) = none ∧
    find_image_in_messages c5Msgs = .ok (some (1, 0, "img:b")) ∧
    spec_first_image_literal c5Msgs = none := by
  refine ⟨by decide, by decide, by decide, by decide⟩

/-- **C5 (amended)**: on input whose messages all carry a `"role"` key and
whose scanned items carry a `"type"` key (and image items their URL), the
scanner returns the location of the first image-kind content item found
scanning **all** user messages with sequence-valued content, in message
order then content order — not only the first such message; it returns
absence (`.ok none`, not an error) when no such item exists, it does not
mutate its input (it is a pure function returning only a location), and a
user message with scalar content is skipped. -/
theorem c5_scanner_contract (msgs : List Message) (hwf : scanWF msgs = true) :
    find_image_in_messages msgs = .ok (spec_first_image_scan msgs) :=
  find_messages_wf msgs hwf

/-- Witness for the amended C5 on the counterexample input (which is
well-formed): the scanner returns the image of the second sequence-valued
user message. -/
theorem c5_scanner_contract_witness :
    find_image_in_messages c5Msgs = .ok (spec_first_image_scan c5Msgs) :=
  c5_scanner_contract c5Msgs (by decide)

/-! ## Claim C10: missing keys raise `KeyError` -/

def c10V : Valves :=
  { priority := 0, OCR_Base_URL := "http://b", OCR_API_KEY := "k"
    max_retries := 3, ocr_prompt := "p", model_name := "m" }

def c10Net : Nat → AttemptOutcome := fun _ => .fail "x"

def c10MsgNoRole : Message := { role? := none, content? := none }

def c10ItemNoType : ContentItem :=
  { type? := none, text? := some (some "hi"), image_url? := none }

def c10MsgNoType : Message :=
  { role? := some "user", content? := some (.list [c10ItemNoType]) }

/-- **C10**: the scanner is total only when every message carries a
`"role"` key and every item of a scanned user message carries a `"type"`
key; on a message without `"role"`, or a scanned content item without
`"type"`, `_find_image_in_messages` — and hence `inlet`, which calls it
outside its `try` block — raises `KeyError` instead of returning absence. -/
theorem c10_keyerror_on_missing_keys :
    find_image_in_messages [c10MsgNoRole] = .error (.keyError "role") ∧
    inlet c10V c10Net { messages? := some [c10MsgNoRole] } =
      .error (.keyError "role") ∧
    find_image_in_messages [c10MsgNoType] = .error (.keyError "type") ∧
    inlet c10V c10Net { messages? := some [c10MsgNoType] } =
      .error (.keyError "type") := by
  refine ⟨by decide, by decide, by decide, by decide⟩

end ImageOCR
